import Mathlib

/-!
Shallow embedding of the BrainForge stats/scoring engine of the user service
(`src/services/user_service/user_main.py`), together with proofs of the
specification's claims about it.

Modelling conventions:
* Python's arbitrary-precision non-negative integers are modelled by `ℕ`
  (all quantities handled by the engine are non-negative by the data model).
* Python floats (`accuracy`, the 0.7/0.3/1.5 literals) are modelled by exact
  rationals `ℚ`; `int()` applied to a float is modelled by truncation toward
  zero (`ratTrunc`).
* Calendar dates (UTC date granularity) are modelled by day numbers `ℕ`.
-/

namespace Portfolio

/-- Truncation toward zero on rationals, the behaviour of Python `int()`
applied to a float value. -/
def ratTrunc (q : ℚ) : ℤ :=
  if 0 ≤ q then ⌊q⌋ else ⌈q⌉

/-- The difficulty multiplier table of `calculate_sparks`:
`multipliers = {'easy': 1.0, 'medium': 1.5, 'hard': 2.0, 'expert': 3.0}`
read with `multipliers.get(difficulty, 1.0)`. -/
def difficultyMultiplier (difficulty : String) : ℚ :=
  if difficulty = "easy" then 1
  else if difficulty = "medium" then 3/2
  else if difficulty = "hard" then 2
  else if difficulty = "expert" then 3
  else 1

/-- Embedding of `calculate_sparks(score, difficulty, accuracy)`
(user_main.py lines 225-239). -/
def calculate_sparks (score : ℕ) (difficulty : String) (accuracy : ℚ) : ℤ :=
  let base_sparks : ℕ := max (score / 10) 10
  let multiplier : ℚ := difficultyMultiplier difficulty
  let accuracy_bonus : ℚ := 1 + accuracy / 200
  let sparks : ℤ := ratTrunc ((base_sparks : ℚ) * multiplier * accuracy_bonus)
  max sparks 10

/-- The `while sparks >= required` loop of `calculate_brain_level`
(user_main.py lines 246-254), as a recursive function on the loop state
`(level, required, increment)`.  Termination: once `increment` is positive
(it starts at 100 and only grows) `required` strictly increases each
iteration, so it eventually exceeds `sparks`. -/
def brainLevelGo (sparks level required increment : ℕ) : ℕ :=
  if h : required ≤ sparks then
    brainLevelGo sparks (level + 1) (required + increment) (increment + 50)
  else
    level
termination_by 2 * (sparks + 1 - required) + (if increment = 0 then 1 else 0)
decreasing_by
  simp_wf
  split_ifs <;> omega

/-- Unfolding equation of the loop. -/
theorem brainLevelGo_eq (sparks level required increment : ℕ) :
    brainLevelGo sparks level required increment =
      if required ≤ sparks then
        brainLevelGo sparks (level + 1) (required + increment) (increment + 50)
      else level := by
  rw [brainLevelGo.eq_def]
  split_ifs <;> rfl

/-- Embedding of `calculate_brain_level(sparks)` (user_main.py lines 242-255):
runs the loop from `level = 1`, `required = 0`, `increment = 100` and returns
`level - 1`. -/
def calculate_brain_level (sparks : ℕ) : ℕ :=
  brainLevelGo sparks 1 0 100 - 1

/-- Fuel-indexed twin of `brainLevelGo`, structurally recursive on the fuel:
returns `none` when the fuel runs out before the loop exits.  Used to state
that the source loop terminates within an explicit iteration bound, and to
evaluate `brainLevelGo` on concrete inputs. -/
def brainLevelFuelGo : ℕ → ℕ → ℕ → ℕ → ℕ → Option ℕ
  | 0, _, _, _, _ => none
  | fuel + 1, sparks, level, required, increment =>
    if required ≤ sparks then
      brainLevelFuelGo fuel sparks (level + 1) (required + increment) (increment + 50)
    else
      some level

/-- With fuel exceeding `sparks + 1 - required` the fuel-indexed loop agrees
with the loop itself, provided the increment is positive (as it always is in
the reachable states, where it starts at 100 and only grows). -/
theorem brainLevelFuelGo_eq (fuel sparks level required increment : ℕ)
    (hinc : 0 < increment) (hfuel : sparks + 1 - required < fuel) :
    brainLevelFuelGo fuel sparks level required increment =
      some (brainLevelGo sparks level required increment) := by
  induction fuel generalizing level required increment with
  | zero => omega
  | succ n ih =>
    rw [brainLevelFuelGo, brainLevelGo_eq]
    split_ifs with hc
    · exact ih (level + 1) (required + increment) (increment + 50) (by omega) (by omega)
    · rfl

/-- The loop never returns a value below its starting `level`. -/
theorem brainLevelFuelGo_le (fuel sparks level required increment out : ℕ)
    (h : brainLevelFuelGo fuel sparks level required increment = some out) :
    level ≤ out := by
  induction fuel generalizing level required increment with
  | zero => simp [brainLevelFuelGo] at h
  | succ n ih =>
    rw [brainLevelFuelGo] at h
    split_ifs at h with hc
    · exact le_trans (Nat.le_succ level) (ih (level + 1) (required + increment) (increment + 50) h)
    · simp only [Option.some.injEq] at h
      omega

/-- Evaluation principle for `calculate_brain_level` through the fuel-indexed
loop: if the fuelled run from the initial state returns `m + 1`, the brain
level is `m`. -/
theorem calculate_brain_level_eval (sparks m : ℕ)
    (h : brainLevelFuelGo (sparks + 2) sparks 1 0 100 = some (m + 1)) :
    calculate_brain_level sparks = m := by
  have he := brainLevelFuelGo_eq (sparks + 2) sparks 1 0 100 (by omega) (by omega)
  rw [he] at h
  have : brainLevelGo sparks 1 0 100 = m + 1 := by
    exact Option.some.inj h
  simp [calculate_brain_level, this]

/-- Truncation toward zero agrees with the floor on non-negative arguments. -/
theorem ratTrunc_eq_floor {q : ℚ} (h : 0 ≤ q) : ratTrunc q = ⌊q⌋ :=
  if_pos h

/-- Every difficulty multiplier is positive (the table values are
1, 3/2, 2, 3 and the default is 1). -/
theorem difficultyMultiplier_pos (difficulty : String) :
    0 < difficultyMultiplier difficulty := by
  unfold difficultyMultiplier
  split_ifs <;> norm_num

/-- C10: calculate_brain_level is total: for every non-negative sparks input
the while loop terminates — the fuelled copy of the loop already finishes
within `sparks + 2` iterations, because `required` grows by at least 100 per
iteration — and a brain level (at least 1) is defined for every input. -/
theorem calculate_brain_level_total (sparks : ℕ) :
    brainLevelFuelGo (sparks + 2) sparks 1 0 100 =
        some (calculate_brain_level sparks + 1) ∧
      1 ≤ calculate_brain_level sparks := by
  have he := brainLevelFuelGo_eq (sparks + 2) sparks 1 0 100 (by omega) (by omega)
  have h0 : brainLevelGo sparks 1 0 100 = brainLevelGo sparks 2 100 150 := by
    rw [brainLevelGo_eq]
    simp
  have he2 := brainLevelFuelGo_eq (sparks + 2) sparks 2 100 150 (by omega) (by omega)
  have h2 : 2 ≤ brainLevelGo sparks 2 100 150 :=
    brainLevelFuelGo_le (sparks + 2) sparks 2 100 150 _ he2
  have hcalc : calculate_brain_level sparks + 1 = brainLevelGo sparks 1 0 100 := by
    simp only [calculate_brain_level]
    omega
  refine ⟨?_, ?_⟩
  · rw [he, hcalc]
  · simp only [calculate_brain_level]
    omega

/-- C1: evaluation of `calculate_brain_level` at the spec's stated points.
The loop's thresholds are 0, 100, 250, 450, 700, 1000 (increments
100, 150, 200, 250, 300), not the 0, 100, 300, 600, 1000 announced in the
code comment and the claim: the code returns 3 already at 250 sparks,
5 at 999 (claim says 4) and 6 at 1000 (claim says 5). -/
theorem calculate_brain_level_failing_inputs :
    calculate_brain_level 0 = 1 ∧ calculate_brain_level 100 = 2 ∧
      calculate_brain_level 250 = 3 ∧ calculate_brain_level 300 = 3 ∧
      calculate_brain_level 600 = 4 ∧ calculate_brain_level 999 = 5 ∧
      calculate_brain_level 1000 = 6 :=
  ⟨calculate_brain_level_eval 0 1 (by decide),
   calculate_brain_level_eval 100 2 (by decide),
   calculate_brain_level_eval 250 3 (by decide),
   calculate_brain_level_eval 300 3 (by decide),
   calculate_brain_level_eval 600 4 (by decide),
   calculate_brain_level_eval 999 5 (by decide),
   calculate_brain_level_eval 1000 6 (by decide)⟩

/-- The spark formula exactly as the claim states it:
`max(floor(max(score // 10, 10) * m * (1 + accuracy/200)), 10)` with `m`
read from the stated difficulty table (1.0 for any unrecognized value). -/
def sparksSpec (score : ℕ) (difficulty : String) (accuracy : ℚ) : ℤ :=
  let m : ℚ :=
    if difficulty = "easy" then 1
    else if difficulty = "medium" then 3/2
    else if difficulty = "hard" then 2
    else if difficulty = "expert" then 3
    else 1
  max ⌊((max (score / 10) 10 : ℕ) : ℚ) * m * (1 + accuracy / 200)⌋ 10

/-- C5: for every score, every difficulty string and every accuracy in
[0, 100], `calculate_sparks` returns exactly the claimed closed formula, and
the result is always at least 10. -/
theorem calculate_sparks_formula (score : ℕ) (difficulty : String) (accuracy : ℚ)
    (h0 : 0 ≤ accuracy) (_h100 : accuracy ≤ 100) :
    calculate_sparks score difficulty accuracy = sparksSpec score difficulty accuracy ∧
      10 ≤ calculate_sparks score difficulty accuracy := by
  have hm := difficultyMultiplier_pos difficulty
  have hb : (0 : ℚ) ≤ ((max (score / 10) 10 : ℕ) : ℚ) := Nat.cast_nonneg _
  have hbo : (0 : ℚ) ≤ 1 + accuracy / 200 := by linarith
  have harg : (0 : ℚ) ≤ ((max (score / 10) 10 : ℕ) : ℚ) *
      difficultyMultiplier difficulty * (1 + accuracy / 200) :=
    mul_nonneg (mul_nonneg hb hm.le) hbo
  have hspec : sparksSpec score difficulty accuracy =
      max ⌊((max (score / 10) 10 : ℕ) : ℚ) * difficultyMultiplier difficulty *
        (1 + accuracy / 200)⌋ 10 := by
    simp only [sparksSpec, difficultyMultiplier]
  constructor
  · rw [hspec]
    simp only [calculate_sparks]
    rw [ratTrunc_eq_floor harg]
  · simp only [calculate_sparks]
    exact le_max_right _ _

/-- C5 witness: the theorem applied at score 100, difficulty "hard",
accuracy 90. -/
theorem calculate_sparks_formula_witness :
    ((0 : ℚ) ≤ 90 ∧ (90 : ℚ) ≤ 100) ∧
      (calculate_sparks 100 "hard" 90 = sparksSpec 100 "hard" 90 ∧
        10 ≤ calculate_sparks 100 "hard" 90) :=
  ⟨⟨by norm_num, by norm_num⟩,
    calculate_sparks_formula 100 "hard" 90 (by norm_num) (by norm_num)⟩

/-- C6: holding the difficulty fixed, `calculate_sparks` is monotonically
non-decreasing in the score and in the accuracy, for accuracies in [0, 100]. -/
theorem calculate_sparks_monotone (difficulty : String) (s1 s2 : ℕ) (a1 a2 : ℚ)
    (hs : s1 ≤ s2) (ha0 : 0 ≤ a1) (ha : a1 ≤ a2) (_ha100 : a2 ≤ 100) :
    calculate_sparks s1 difficulty a1 ≤ calculate_sparks s2 difficulty a2 := by
  have hm := difficultyMultiplier_pos difficulty
  have hb : ((max (s1 / 10) 10 : ℕ) : ℚ) ≤ ((max (s2 / 10) 10 : ℕ) : ℚ) := by
    exact_mod_cast max_le_max (Nat.div_le_div_right hs) le_rfl
  have hb1 : (0 : ℚ) ≤ ((max (s1 / 10) 10 : ℕ) : ℚ) := Nat.cast_nonneg _
  have hbo1 : (0 : ℚ) ≤ 1 + a1 / 200 := by linarith
  have hbo : (1 + a1 / 200 : ℚ) ≤ 1 + a2 / 200 := by linarith
  have harg1 : (0 : ℚ) ≤ ((max (s1 / 10) 10 : ℕ) : ℚ) *
      difficultyMultiplier difficulty * (1 + a1 / 200) :=
    mul_nonneg (mul_nonneg hb1 hm.le) hbo1
  have harg2 : (0 : ℚ) ≤ ((max (s2 / 10) 10 : ℕ) : ℚ) *
      difficultyMultiplier difficulty * (1 + a2 / 200) :=
    mul_nonneg (mul_nonneg (le_trans hb1 hb) hm.le) (by linarith)
  have hle : ((max (s1 / 10) 10 : ℕ) : ℚ) * difficultyMultiplier difficulty *
        (1 + a1 / 200) ≤
      ((max (s2 / 10) 10 : ℕ) : ℚ) * difficultyMultiplier difficulty *
        (1 + a2 / 200) := by
    apply mul_le_mul (mul_le_mul_of_nonneg_right hb hm.le) hbo hbo1
    exact mul_nonneg (le_trans hb1 hb) hm.le
  simp only [calculate_sparks]
  rw [ratTrunc_eq_floor harg1, ratTrunc_eq_floor harg2]
  exact max_le_max (Int.floor_le_floor hle) le_rfl

/-- C6 witness: the theorem applied at scores 50 and 80, accuracies 30
and 60, difficulty "medium". -/
theorem calculate_sparks_monotone_witness :
    (50 ≤ 80 ∧ (0 : ℚ) ≤ 30 ∧ (30 : ℚ) ≤ 60 ∧ (60 : ℚ) ≤ 100) ∧
      calculate_sparks 50 "medium" 30 ≤ calculate_sparks 80 "medium" 60 :=
  ⟨⟨by norm_num, by norm_num, by norm_num, by norm_num⟩,
    calculate_sparks_monotone "medium" 50 80 30 60 (by norm_num) (by norm_num)
      (by norm_num) (by norm_num)⟩

/-- A `user_stats` row (database.py), with the column defaults of the schema.
Dates are modelled at UTC-day granularity by day numbers. -/
structure UserStats where
  sparks : ℕ
  brain_level : ℕ
  synapse_streak : ℕ
  best_synapse_streak : ℕ
  mind_rating : ℤ
  total_games_played : ℕ
  total_time_trained : ℕ
  last_activity_date : Option ℕ
  deriving Repr, DecidableEq

/-- The schema defaults of a freshly created `UserStats(user_id=...)` row:
sparks 0, brain_level 1, synapse_streak 0, best_synapse_streak 0,
mind_rating 0, total_games_played 0, total_time_trained 0, no activity date. -/
def defaultUserStats : UserStats :=
  { sparks := 0, brain_level := 1, synapse_streak := 0, best_synapse_streak := 0,
    mind_rating := 0, total_games_played := 0, total_time_trained := 0,
    last_activity_date := none }

/-- The body of a `GameScoreCreate` submission (models.py); the fields the
engine reads. `accuracy` is a float, modelled as a rational. -/
structure GameScoreCreate where
  game_type : String
  difficulty : String
  score : ℕ
  time_taken : ℕ
  accuracy : ℚ
  best_streak : Option ℕ
  deriving Repr, DecidableEq

/-- A persisted `game_scores` row as created by `submit_game_score`. -/
structure GameScoreRow where
  game_type : String
  difficulty : String
  score : ℕ
  sparks_earned : ℕ
  time_taken : ℕ
  accuracy : ℚ
  deriving Repr, DecidableEq

/-- Embedding of the state transition of `update_synapse_streak(stats, db)`
(user_main.py lines 258-281), without the final `db.commit()`: the streak
transition keyed by UTC calendar date, the best-streak high-water update, and
the new activity date. `today` is the current UTC day number. -/
def update_synapse_streak (today : ℕ) (stats : UserStats) : UserStats :=
  let stats :=
    match stats.last_activity_date with
    | some last_date =>
      let days_diff : ℤ := (today : ℤ) - (last_date : ℤ)
      if days_diff = 1 then
        { stats with synapse_streak := stats.synapse_streak + 1 }
      else if 1 < days_diff then
        { stats with synapse_streak := 1 }
      else
        stats
    | none => { stats with synapse_streak := 1 }
  let stats :=
    if stats.best_synapse_streak < stats.synapse_streak then
      { stats with best_synapse_streak := stats.synapse_streak }
    else stats
  { stats with last_activity_date := some today }

/-- The stats-field updates of `submit_game_score` (user_main.py lines
335-349): increment sparks, games played and time trained, fold the score
into the mind rating, adopt a larger client-reported best streak, and
recompute the brain level. -/
def applyStatsUpdate (score_data : GameScoreCreate) (sparks_earned : ℕ)
    (stats : UserStats) : UserStats :=
  let stats := { stats with
    sparks := stats.sparks + sparks_earned
    total_games_played := stats.total_games_played + 1
    total_time_trained := stats.total_time_trained + score_data.time_taken }
  let stats := { stats with
    mind_rating :=
      ratTrunc ((stats.mind_rating : ℚ) * (7/10) + (score_data.score : ℚ) * (3/10)) }
  let stats :=
    match score_data.best_streak with
    | some b =>
      if b ≠ 0 ∧ stats.best_synapse_streak < b then
        { stats with best_synapse_streak := b }
      else stats
    | none => stats
  { stats with brain_level := calculate_brain_level stats.sparks }

/-- The persisted rows for one user: the optional `user_stats` row and the
list of `game_scores` rows. -/
structure DBState where
  stats : Option UserStats
  scores : List GameScoreRow
  deriving Repr, DecidableEq

/-- An open ORM session: the committed database state and the pending
working state (committed plus any not-yet-committed changes). -/
structure SessionState where
  committed : DBState
  pending : DBState
  deriving Repr, DecidableEq

/-- `db.commit()`: all pending changes become committed. -/
def dbCommit (s : SessionState) : SessionState :=
  { s with committed := s.pending }

/-- `db.rollback()`: all pending changes are discarded. -/
def dbRollback (s : SessionState) : SessionState :=
  { s with pending := s.committed }

/-- `db.add(game_score)`: the new row joins the pending state. -/
def dbAddScore (g : GameScoreRow) (s : SessionState) : SessionState :=
  { s with pending := { s.pending with scores := s.pending.scores ++ [g] } }

/-- Mutation of the session-attached stats object: the changed row is part of
the pending state. -/
def setPendingStats (st : UserStats) (s : SessionState) : SessionState :=
  { s with pending := { s.pending with stats := some st } }

/-- Embedding of `get_or_create_user_stats(user_id, db)` (user_main.py lines
214-222): return the existing stats row, or create one with the schema
defaults and commit it. -/
def get_or_create_user_stats (s : SessionState) : UserStats × SessionState :=
  match s.pending.stats with
  | some st => (st, s)
  | none => (defaultUserStats, dbCommit (setPendingStats defaultUserStats s))

/-- Embedding of `submit_game_score` (user_main.py lines 295-365).
`today` is the current UTC day number; `failDuringUpdate` injects an internal
error between step 3 (fetch-or-create of the stats row) and the stats-field
updates, which the `except` handler answers with `db.rollback()` and a
generic failure.  On success the streak update commits (line 282 inside
`update_synapse_streak`) and the handler commits again (line 354). -/
def submit_game_score (today : ℕ) (score_data : GameScoreCreate)
    (failDuringUpdate : Bool) (s : SessionState) :
    Except String GameScoreRow × SessionState :=
  let sparks_earned : ℕ :=
    (calculate_sparks score_data.score score_data.difficulty score_data.accuracy).toNat
  let game_score : GameScoreRow :=
    { game_type := score_data.game_type, difficulty := score_data.difficulty,
      score := score_data.score, sparks_earned := sparks_earned,
      time_taken := score_data.time_taken, accuracy := score_data.accuracy }
  let s := dbAddScore game_score s
  let (stats, s) := get_or_create_user_stats s
  if failDuringUpdate then
    (Except.error "Failed to submit score", dbRollback s)
  else
    let stats := applyStatsUpdate score_data sparks_earned stats
    let s := setPendingStats stats s
    let stats := update_synapse_streak today stats
    let s := dbCommit (setPendingStats stats s)
    let s := dbCommit s
    (Except.ok game_score, s)

/-- One score-submission request: each request runs in a fresh session whose
pending state starts at the committed database state, and leaves behind
whatever its handler committed. -/
structure Submission where
  today : ℕ
  score_data : GameScoreCreate
  failDuringUpdate : Bool

/-- Run one submission request against the committed database state. -/
def runRequest (sub : Submission) (db : DBState) : DBState :=
  (submit_game_score sub.today sub.score_data sub.failDuringUpdate
    { committed := db, pending := db }).2.committed

/-- Run a sequence of submission requests. -/
def runSubmissions (subs : List Submission) (db : DBState) : DBState :=
  subs.foldl (fun d sub => runRequest sub d) db

/-- The stored best synapse streak of a database state (0 when no stats row
exists yet). -/
def bestStreakOf (db : DBState) : ℕ :=
  match db.stats with
  | some st => st.best_synapse_streak
  | none => 0

/-- The streak update never touches the mind rating. -/
theorem update_synapse_streak_mind_rating (today : ℕ) (stats : UserStats) :
    (update_synapse_streak today stats).mind_rating = stats.mind_rating := by
  cases h : stats.last_activity_date <;> simp only [update_synapse_streak, h] <;>
    split_ifs <;> rfl

/-- The streak update never decreases the stored best streak. -/
theorem update_synapse_streak_best_mono (today : ℕ) (stats : UserStats) :
    stats.best_synapse_streak ≤ (update_synapse_streak today stats).best_synapse_streak := by
  obtain ⟨sp, bl, ss, bs, mr, tg, tt, lad⟩ := stats
  cases lad <;> simp only [update_synapse_streak] <;> split_ifs <;> simp_all <;> omega

/-- After the streak update the best streak dominates the current streak. -/
theorem update_synapse_streak_best_ge (today : ℕ) (stats : UserStats) :
    (update_synapse_streak today stats).synapse_streak ≤
      (update_synapse_streak today stats).best_synapse_streak := by
  obtain ⟨sp, bl, ss, bs, mr, tg, tt, lad⟩ := stats
  cases lad <;> simp only [update_synapse_streak] <;> split_ifs <;> simp_all <;> omega

/-- The stats-field update never decreases the stored best streak (the
client-reported streak is adopted only when larger). -/
theorem applyStatsUpdate_best_mono (score_data : GameScoreCreate) (sparks_earned : ℕ)
    (stats : UserStats) :
    stats.best_synapse_streak ≤
      (applyStatsUpdate score_data sparks_earned stats).best_synapse_streak := by
  cases h : score_data.best_streak with
  | none => simp [applyStatsUpdate, h]
  | some b =>
    simp only [applyStatsUpdate, h]
    split_ifs <;> simp_all <;> omega

/-- C7: the streak update, keyed by UTC calendar date: with no prior activity
the streak becomes 1; with a gap of exactly one day it becomes streak + 1;
with a gap greater than one day it resets to 1; on a repeated submission the
same day it is unchanged; afterwards the best streak becomes the maximum of
the old best streak and the new streak, and the activity date becomes today. -/
theorem update_synapse_streak_spec (today : ℕ) (stats : UserStats) :
    (stats.last_activity_date = none →
      (update_synapse_streak today stats).synapse_streak = 1) ∧
    (∀ last, stats.last_activity_date = some last →
      ((today : ℤ) - (last : ℤ) = 1 →
        (update_synapse_streak today stats).synapse_streak =
          stats.synapse_streak + 1) ∧
      (1 < (today : ℤ) - (last : ℤ) →
        (update_synapse_streak today stats).synapse_streak = 1) ∧
      ((today : ℤ) - (last : ℤ) = 0 →
        (update_synapse_streak today stats).synapse_streak =
          stats.synapse_streak)) ∧
    (update_synapse_streak today stats).best_synapse_streak =
      max stats.best_synapse_streak (update_synapse_streak today stats).synapse_streak ∧
    (update_synapse_streak today stats).last_activity_date = some today := by
  refine ⟨?_, ?_, ?_, ?_⟩
  · intro h
    simp only [update_synapse_streak, h]
    split_ifs <;> rfl
  · intro last h
    refine ⟨?_, ?_, ?_⟩ <;> intro hdiff <;>
      simp only [update_synapse_streak, h] <;> split_ifs <;> first | rfl | omega
  · obtain ⟨sp, bl, ss, bs, mr, tg, tt, lad⟩ := stats
    cases lad <;> simp only [update_synapse_streak] <;> split_ifs <;> simp_all <;> omega
  · obtain ⟨sp, bl, ss, bs, mr, tg, tt, lad⟩ := stats
    cases lad <;> simp only [update_synapse_streak] <;> split_ifs <;> rfl

/-- Stats row used by the C7 witness: streak 2, best 2, last activity on
day 4. -/
def streakExampleStats : UserStats :=
  { sparks := 150, brain_level := 2, synapse_streak := 2, best_synapse_streak := 2,
    mind_rating := 40, total_games_played := 3, total_time_trained := 100,
    last_activity_date := some 4 }

/-- C7 witness: the theorem applied on day 5 to a user whose last activity
was day 4 (a gap of exactly one day). -/
theorem update_synapse_streak_spec_witness :
    (streakExampleStats.last_activity_date = some 4 ∧
        ((5 : ℕ) : ℤ) - ((4 : ℕ) : ℤ) = 1) ∧
      (update_synapse_streak 5 streakExampleStats).synapse_streak =
        streakExampleStats.synapse_streak + 1 :=
  ⟨⟨rfl, by decide⟩,
    (((update_synapse_streak_spec 5 streakExampleStats).2.1 4 rfl).1 (by decide))⟩

/-- Shape of a successful submission: the committed stats row is the streak
update applied after the stats-field updates, starting from the stored row or
the schema defaults. -/
theorem runRequest_success (sub : Submission) (db : DBState)
    (h : sub.failDuringUpdate = false) :
    (runRequest sub db).stats =
      some (update_synapse_streak sub.today
        (applyStatsUpdate sub.score_data
          (calculate_sparks sub.score_data.score sub.score_data.difficulty
            sub.score_data.accuracy).toNat
          (db.stats.getD defaultUserStats))) := by
  cases hdb : db.stats <;>
    simp [runRequest, submit_game_score, get_or_create_user_stats, dbAddScore,
      setPendingStats, dbCommit, dbRollback, h, hdb]

/-- A single request never decreases the committed best streak. -/
theorem runRequest_best_mono (sub : Submission) (db : DBState) :
    bestStreakOf db ≤ bestStreakOf (runRequest sub db) := by
  cases hfail : sub.failDuringUpdate with
  | true =>
    cases hdb : db.stats <;>
      simp [runRequest, submit_game_score, get_or_create_user_stats, dbAddScore,
        setPendingStats, dbCommit, dbRollback, hfail, hdb, bestStreakOf]
  | false =>
    have hshape := runRequest_success sub db hfail
    have h1 := applyStatsUpdate_best_mono sub.score_data
      (calculate_sparks sub.score_data.score sub.score_data.difficulty
        sub.score_data.accuracy).toNat (db.stats.getD defaultUserStats)
    have h2 := update_synapse_streak_best_mono sub.today
      (applyStatsUpdate sub.score_data
        (calculate_sparks sub.score_data.score sub.score_data.difficulty
          sub.score_data.accuracy).toNat (db.stats.getD defaultUserStats))
    cases hdb : db.stats with
    | none => simp [bestStreakOf, hshape, hdb]
    | some st =>
      simp only [bestStreakOf, hshape, hdb, Option.getD_some] at *
      omega

/-- C8: the best synapse streak is a high-water mark: it never decreases
across any sequence of submission requests, and after every completed
(successful) submission the committed stats row satisfies
best_synapse_streak at least synapse_streak. -/
theorem best_streak_high_water (subs : List Submission) (db : DBState) :
    bestStreakOf db ≤ bestStreakOf (runSubmissions subs db) ∧
    ∀ sub : Submission, ∀ dbPre : DBState, sub.failDuringUpdate = false →
      ∃ st : UserStats, (runRequest sub dbPre).stats = some st ∧
        st.synapse_streak ≤ st.best_synapse_streak := by
  constructor
  · induction subs generalizing db with
    | nil => simp [runSubmissions]
    | cons x xs ih =>
      calc bestStreakOf db ≤ bestStreakOf (runRequest x db) :=
            runRequest_best_mono x db
        _ ≤ bestStreakOf (runSubmissions xs (runRequest x db)) :=
            ih (runRequest x db)
        _ = bestStreakOf (runSubmissions (x :: xs) db) := by
            simp [runSubmissions]
  · intro sub dbPre hfail
    refine ⟨_, runRequest_success sub dbPre hfail, ?_⟩
    exact update_synapse_streak_best_ge sub.today _

/-- The empty database state: no stats row, no recorded scores. -/
def emptyDB : DBState := { stats := none, scores := [] }

/-- The spec's end-to-end example submission: a hard math-sprint game with
score 100, 30 seconds, 90 percent accuracy, no client-reported streak. -/
def exScoreData : GameScoreCreate :=
  { game_type := "math_sprint", difficulty := "hard", score := 100,
    time_taken := 30, accuracy := 90, best_streak := none }

/-- The example submission request on day 5, running to completion. -/
def exSubmission : Submission :=
  { today := 5, score_data := exScoreData, failDuringUpdate := false }

/-- C8 witness: the theorem applied to the example request against the empty
database. -/
theorem best_streak_high_water_witness :
    exSubmission.failDuringUpdate = false ∧
      ∃ st : UserStats, (runRequest exSubmission emptyDB).stats = some st ∧
        st.synapse_streak ≤ st.best_synapse_streak :=
  ⟨rfl, (best_streak_high_water [] emptyDB).2 exSubmission emptyDB rfl⟩

/-- C9: the mind rating is an exponential moving average: each submission
sets it to floor(mind_rating * 0.7 + score * 0.3) (for the non-negative
ratings the engine produces), and a completed submission from a fresh user
(no stats row, rating 0) leaves it at floor(0.3 * score). -/
theorem mind_rating_ema (score_data : GameScoreCreate) (sparks_earned : ℕ)
    (stats : UserStats) (sub : Submission) (db : DBState) :
    (0 ≤ stats.mind_rating →
      (applyStatsUpdate score_data sparks_earned stats).mind_rating =
        ⌊(stats.mind_rating : ℚ) * (7/10) + (score_data.score : ℚ) * (3/10)⌋) ∧
    (sub.failDuringUpdate = false → db.stats = none →
      ∃ st : UserStats, (runRequest sub db).stats = some st ∧
        st.mind_rating = ⌊(3/10 : ℚ) * (sub.score_data.score : ℚ)⌋) := by
  have key : ∀ (sd : GameScoreCreate) (k : ℕ) (s : UserStats), 0 ≤ s.mind_rating →
      (applyStatsUpdate sd k s).mind_rating =
        ⌊(s.mind_rating : ℚ) * (7/10) + (sd.score : ℚ) * (3/10)⌋ := by
    intro sd k s hs
    have harg : (0 : ℚ) ≤ (s.mind_rating : ℚ) * (7/10) + (sd.score : ℚ) * (3/10) := by
      have h1 : (0 : ℚ) ≤ (s.mind_rating : ℚ) := by exact_mod_cast hs
      have h2 : (0 : ℚ) ≤ (sd.score : ℚ) := Nat.cast_nonneg _
      positivity
    have hproj : (applyStatsUpdate sd k s).mind_rating =
        ratTrunc ((s.mind_rating : ℚ) * (7/10) + (sd.score : ℚ) * (3/10)) := by
      cases hb : sd.best_streak <;> simp only [applyStatsUpdate, hb] <;>
        split_ifs <;> rfl
    rw [hproj, ratTrunc_eq_floor harg]
  refine ⟨key score_data sparks_earned stats, ?_⟩
  intro hfail hdb
  refine ⟨_, runRequest_success sub db hfail, ?_⟩
  rw [update_synapse_streak_mind_rating]
  rw [key _ _ _ (by simp [hdb, defaultUserStats])]
  simp only [hdb, Option.getD_none, defaultUserStats]
  norm_num
  congr 1
  ring

/-- C9 witness: the theorem applied to the example submission from a fresh
user, and to the stats-field update on the default row. -/
theorem mind_rating_ema_witness :
    ((0 : ℤ) ≤ defaultUserStats.mind_rating ∧
      (applyStatsUpdate exScoreData 29 defaultUserStats).mind_rating =
        ⌊(defaultUserStats.mind_rating : ℚ) * (7/10) +
          (exScoreData.score : ℚ) * (3/10)⌋) ∧
    ((exSubmission.failDuringUpdate = false ∧ emptyDB.stats = none) ∧
      ∃ st : UserStats, (runRequest exSubmission emptyDB).stats = some st ∧
        st.mind_rating = ⌊(3/10 : ℚ) * (exSubmission.score_data.score : ℚ)⌋) :=
  ⟨⟨by decide,
      (mind_rating_ema exScoreData 29 defaultUserStats exSubmission emptyDB).1
        (by decide)⟩,
    ⟨⟨rfl, rfl⟩,
      (mind_rating_ema exScoreData 29 defaultUserStats exSubmission emptyDB).2
        rfl rfl⟩⟩

/-- C2: counterexample to submission atomicity. For a fresh user (no stats
row) whose submission hits an internal error right after the fetch-or-create
step, the handler's rollback comes too late: `get_or_create_user_stats` has
already committed the session, making the just-added score row visible, while
none of the stats-field updates were applied.  The request reports failure,
yet the committed score count went from 0 to 1. -/
theorem submit_game_score_partial_write :
    (submit_game_score 5 exScoreData true
        { committed := emptyDB, pending := emptyDB }).1 =
      Except.error "Failed to submit score" ∧
    (submit_game_score 5 exScoreData true
        { committed := emptyDB, pending := emptyDB }).2.committed.scores.length = 1 ∧
    (submit_game_score 5 exScoreData true
        { committed := emptyDB, pending := emptyDB }).2.committed.stats =
      some defaultUserStats ∧
    emptyDB.scores.length = 0 ∧
    defaultUserStats.total_games_played = 0 :=
  ⟨rfl, rfl, rfl, rfl, rfl⟩

/-- A `user_stats` row as the leaderboard reads it. -/
structure StatsRow where
  user_id : ℕ
  mind_rating : ℤ
  brain_level : ℕ
  sparks : ℕ
  deriving Repr, DecidableEq

/-- A `users` row as the leaderboard reads it. -/
structure UserRow where
  id : ℕ
  username : String
  deriving Repr, DecidableEq

/-- A response entry of the leaderboard endpoint. -/
structure LeaderboardEntry where
  rank : ℕ
  username : String
  mind_rating : ℤ
  brain_level : ℕ
  sparks : ℕ
  deriving Repr, DecidableEq

/-- The `ORDER BY mind_rating DESC` ordering on stats rows. -/
def byMindRatingDesc (a b : StatsRow) : Prop :=
  b.mind_rating ≤ a.mind_rating

instance : DecidableRel byMindRatingDesc := fun a b =>
  inferInstanceAs (Decidable (b.mind_rating ≤ a.mind_rating))

instance : IsTotal StatsRow byMindRatingDesc :=
  ⟨fun a b => le_total b.mind_rating a.mind_rating⟩

instance : IsTrans StatsRow byMindRatingDesc :=
  ⟨fun _ _ _ hab hbc => le_trans hbc hab⟩

/-- The `for rank, stats in enumerate(top_stats, 1)` loop of `get_leaderboard`
(user_main.py lines 420-430): walk the selected rows with the rank counter
starting at `rank`, keep only rows whose owning user exists, and build the
response entries.  The counter advances even on a dropped row, exactly as
`enumerate` does. -/
def leaderboardEntriesFrom (users : List UserRow) :
    ℕ → List StatsRow → List LeaderboardEntry
  | _, [] => []
  | rank, st :: rest =>
    match users.find? fun u => u.id == st.user_id with
    | some u =>
      { rank := rank, username := u.username, mind_rating := st.mind_rating,
        brain_level := st.brain_level, sparks := st.sparks } ::
        leaderboardEntriesFrom users (rank + 1) rest
    | none => leaderboardEntriesFrom users (rank + 1) rest

/-- Embedding of `get_leaderboard(limit, db)` (user_main.py lines 411-432):
select the stats rows ordered by mind rating descending, truncate to `limit`
rows, and pair each with its owning user.  The storage order of rows with
equal ratings is unspecified in SQL; the model fixes a stable sort of the
stored list. -/
def get_leaderboard (limit : ℕ) (stats_table : List StatsRow)
    (users : List UserRow) : List LeaderboardEntry :=
  let top_stats := (List.insertionSort byMindRatingDesc stats_table).take limit
  leaderboardEntriesFrom users 1 top_stats

/-- When every walked stats row has an owning user, the entry builder drops
nothing: lengths agree, the ranks are consecutive from the start value, and
the mind ratings are carried over row by row. -/
theorem leaderboardEntriesFrom_spec (users : List UserRow) (l : List StatsRow)
    (rank : ℕ) (h : ∀ st ∈ l, ∃ u ∈ users, u.id = st.user_id) :
    (leaderboardEntriesFrom users rank l).length = l.length ∧
    (leaderboardEntriesFrom users rank l).map LeaderboardEntry.rank =
      List.range' rank l.length ∧
    (leaderboardEntriesFrom users rank l).map LeaderboardEntry.mind_rating =
      l.map StatsRow.mind_rating := by
  induction l generalizing rank with
  | nil => simp [leaderboardEntriesFrom]
  | cons st rest ih =>
    obtain ⟨u, hu, hid⟩ := h st (List.mem_cons_self st rest)
    have hsome : (users.find? fun v => v.id == st.user_id).isSome :=
      List.find?_isSome.mpr ⟨u, hu, by simp [hid]⟩
    obtain ⟨v, hv⟩ := Option.isSome_iff_exists.mp hsome
    have hrest : ∀ s ∈ rest, ∃ u ∈ users, u.id = s.user_id := fun s hs =>
      h s (List.mem_cons_of_mem st hs)
    obtain ⟨ihl, ihr, ihm⟩ := ih (rank + 1) hrest
    simp only [leaderboardEntriesFrom, hv, List.length_cons, List.map_cons,
      List.range'_succ, ihl, ihr, ihm]
    exact ⟨trivial, trivial, trivial⟩

/-- C4: for every positive requested size, the leaderboard has at most
`limit` entries, is sorted by mind rating descending, and (when every stats
row has an owning user, as relational integrity guarantees) its rank fields
are exactly 1..returned_count in order. -/
theorem get_leaderboard_spec (limit : ℕ) (stats_table : List StatsRow)
    (users : List UserRow) (_hpos : 0 < limit)
    (hI : ∀ st ∈ stats_table, ∃ u ∈ users, u.id = st.user_id) :
    (get_leaderboard limit stats_table users).length ≤ limit ∧
    List.Sorted (fun e1 e2 : LeaderboardEntry => e2.mind_rating ≤ e1.mind_rating)
      (get_leaderboard limit stats_table users) ∧
    (get_leaderboard limit stats_table users).map LeaderboardEntry.rank =
      List.range' 1 (get_leaderboard limit stats_table users).length := by
  have hg : get_leaderboard limit stats_table users =
      leaderboardEntriesFrom users 1
        ((List.insertionSort byMindRatingDesc stats_table).take limit) := rfl
  have htop : ∀ st ∈ (List.insertionSort byMindRatingDesc stats_table).take limit,
      ∃ u ∈ users, u.id = st.user_id := fun st hst =>
    hI st ((List.mem_insertionSort byMindRatingDesc).mp
      (List.take_subset _ _ hst))
  obtain ⟨hlen, hrank, hmr⟩ := leaderboardEntriesFrom_spec users _ 1 htop
  have hsorted : List.Sorted byMindRatingDesc
      ((List.insertionSort byMindRatingDesc stats_table).take limit) :=
    List.Pairwise.sublist (List.take_sublist _ _)
      (List.sorted_insertionSort byMindRatingDesc stats_table)
  refine ⟨?_, ?_, ?_⟩
  · rw [hg, hlen]
    exact le_trans (List.length_take_le _ _) le_rfl
  · rw [hg]
    have hpair : List.Pairwise (fun x y : ℤ => y ≤ x)
        (((List.insertionSort byMindRatingDesc stats_table).take limit).map
          StatsRow.mind_rating) :=
      List.pairwise_map.mpr hsorted
    rw [← hmr] at hpair
    exact List.pairwise_map.mp hpair
  · rw [hg, hrank, hlen]

/-- Stats and user rows used in the leaderboard witnesses and
counterexample. -/
def statsRowA : StatsRow :=
  { user_id := 1, mind_rating := 50, brain_level := 2, sparks := 300 }

/-- Second stats row for the leaderboard witnesses. -/
def statsRowB : StatsRow :=
  { user_id := 2, mind_rating := 70, brain_level := 3, sparks := 600 }

/-- First user row for the leaderboard witnesses. -/
def userAlice : UserRow := { id := 1, username := "alice" }

/-- Second user row for the leaderboard witnesses. -/
def userBob : UserRow := { id := 2, username := "bob" }

/-- C4 witness: the theorem applied to two users with ratings 70 and 50 and
requested size 10. -/
theorem get_leaderboard_spec_witness :
    ((0 < 10) ∧
      (∀ st ∈ [statsRowA, statsRowB], ∃ u ∈ [userAlice, userBob],
        u.id = st.user_id)) ∧
    ((get_leaderboard 10 [statsRowA, statsRowB] [userAlice, userBob]).length ≤ 10 ∧
      List.Sorted (fun e1 e2 : LeaderboardEntry => e2.mind_rating ≤ e1.mind_rating)
        (get_leaderboard 10 [statsRowA, statsRowB] [userAlice, userBob]) ∧
      (get_leaderboard 10 [statsRowA, statsRowB] [userAlice, userBob]).map
          LeaderboardEntry.rank =
        List.range' 1
          (get_leaderboard 10 [statsRowA, statsRowB] [userAlice, userBob]).length) :=
  ⟨⟨by decide, by decide⟩,
    get_leaderboard_spec 10 [statsRowA, statsRowB] [userAlice, userBob]
      (by decide) (by decide)⟩

/-- C3 counterexample: with a single registered user (fewer than the
requested 10) the leaderboard is not the empty list — it returns that user's
entry. -/
theorem get_leaderboard_single_user_nonempty :
    get_leaderboard 10 [statsRowA] [userAlice] =
      [{ rank := 1, username := "alice", mind_rating := 50, brain_level := 2,
          sparks := 300 }] ∧
    get_leaderboard 10 [statsRowA] [userAlice] ≠ [] ∧
    ([statsRowA].length < 10 ∧ [userAlice].length < 10) := by
  refine ⟨by decide, by decide, by decide, by decide⟩

/-- C3 (amended): with every stats row owned by an existing user, the
leaderboard returns `min limit count` entries — all existing users when fewer
than `limit` exist — and is empty exactly when there are no stats rows at
all. -/
theorem get_leaderboard_count (limit : ℕ) (stats_table : List StatsRow)
    (users : List UserRow) (hpos : 0 < limit)
    (hI : ∀ st ∈ stats_table, ∃ u ∈ users, u.id = st.user_id) :
    (get_leaderboard limit stats_table users).length =
      min limit stats_table.length ∧
    (get_leaderboard limit stats_table users = [] ↔ stats_table = []) := by
  have hg : get_leaderboard limit stats_table users =
      leaderboardEntriesFrom users 1
        ((List.insertionSort byMindRatingDesc stats_table).take limit) := rfl
  have htop : ∀ st ∈ (List.insertionSort byMindRatingDesc stats_table).take limit,
      ∃ u ∈ users, u.id = st.user_id := fun st hst =>
    hI st ((List.mem_insertionSort byMindRatingDesc).mp
      (List.take_subset _ _ hst))
  obtain ⟨hlen, -, -⟩ := leaderboardEntriesFrom_spec users _ 1 htop
  have hcount : (get_leaderboard limit stats_table users).length =
      min limit stats_table.length := by
    rw [hg, hlen, List.length_take, List.length_insertionSort]
  refine ⟨hcount, ?_⟩
  rw [← List.length_eq_zero, hcount, ← List.length_eq_zero]
  omega

/-- C3 witness for the amended statement: two users, requested size 10, the
leaderboard returns both (2 = min 10 2) and is nonempty. -/
theorem get_leaderboard_count_witness :
    ((0 < 10) ∧
      (∀ st ∈ [statsRowA, statsRowB], ∃ u ∈ [userAlice, userBob],
        u.id = st.user_id)) ∧
    ((get_leaderboard 10 [statsRowA, statsRowB] [userAlice, userBob]).length =
        min 10 [statsRowA, statsRowB].length ∧
      (get_leaderboard 10 [statsRowA, statsRowB] [userAlice, userBob] = [] ↔
        [statsRowA, statsRowB] = ([] : List StatsRow))) :=
  ⟨⟨by decide, by decide⟩,
    get_leaderboard_count 10 [statsRowA, statsRowB] [userAlice, userBob]
      (by decide) (by decide)⟩

end Portfolio
